import Mathlib

/-!
# Verification of the church-records core logic

Shallow embedding of the data-integrity core of the `a-rol` repository:
the membership-number Identifier Allocator, the family Relationship
Symmetry Engine, and the church Hierarchy Validator, together with the
typed client interface and the church form's reachable payloads.

The database-side procedure bodies (`generate_membership_number`,
`add_family_relationship`, `validate_congregation_hierarchy`,
`can_delete_church`, `get_congregation_count`, the `ON DELETE SET NULL`
foreign-key action) are present in the repository only as documentation
(`MEMBERS_SCHEMA_DOCUMENTATION.md`, the church-hierarchy documentation);
their definitions below are modelled from the spec's algorithm
descriptions.  The TypeScript definitions (`database.ts` types, the
`ChurchForm` component, the list components' delete handlers) are
embedded from the source files directly.
-/

namespace ARol


/-! ## Identifier Allocator -/

/-- Error raised when a church-year membership-number sequence is full. -/
inductive AllocError where
  | ExhaustedSequence
deriving DecidableEq, Repr

/-- The projection of a `members` row that the allocator scans:
its owning church and its (nullable) membership number.  A membership
number `YYYYNNNN` is represented as the natural number
`year * 10000 + seq` with `seq < 10000`. -/
structure MemberNumRow where
  church_id : Nat
  membership_number : Option Nat
deriving DecidableEq, Repr

/-- The even 4-digit sequence parts (`NNNN`) of the existing membership
numbers for a given church whose leading 4 digits (`YYYY`) equal the
given admission year — the scan performed by the allocator. -/
def seqsFor (admission_year church_id : Nat) (rows : List MemberNumRow) : List Nat :=
  rows.filterMap fun r =>
    match r.membership_number with
    | none => none
    | some n =>
        if r.church_id = church_id ∧ n / 10000 = admission_year then some (n % 10000)
        else none

/-- The sequence part the allocator would assign next, given the scanned
sequence parts: `0002` when none exists, else the maximum found plus 2. -/
def nextSeq (seqs : List Nat) : Nat :=
  if seqs = [] then 2 else seqs.foldr max 0 + 2

/-- Modelled from the spec: `generate_membership_number(admission_year,
church_id)`, whose SQL body is absent from the repository (only its
documentation in `MEMBERS_SCHEMA_DOCUMENTATION.md` is).  Scan the
existing membership numbers of the church whose leading 4 digits equal
the admission year; if none exists start at `0002`, otherwise take the
maximum `NNNN` found and return `max + 2`; if the computed `NNNN` would
exceed `9998`, fail with `ExhaustedSequence` instead of wrapping. -/
def generate_membership_number (admission_year church_id : Nat)
    (rows : List MemberNumRow) : Except AllocError Nat :=
  if 9998 < nextSeq (seqsFor admission_year church_id rows) then
    .error .ExhaustedSequence
  else .ok (admission_year * 10000 + nextSeq (seqsFor admission_year church_id rows))

/-- One member creation for a given church and admission year: the
`BEFORE INSERT` trigger allocates the number and the row is persisted
with it; an allocation failure aborts the insert. -/
def createMember (admission_year church_id : Nat)
    (rows : List MemberNumRow) : Except AllocError (List MemberNumRow) :=
  match generate_membership_number admission_year church_id rows with
  | .ok n => .ok (rows ++ [⟨church_id, some n⟩])
  | .error e => .error e

/-- `n` successive member creations for one `(church, year)` pair,
starting from the table `rows`; a failed creation leaves the table
unchanged. -/
def allocRun (admission_year church_id : Nat) (rows : List MemberNumRow) :
    Nat → List MemberNumRow
  | 0 => rows
  | k + 1 =>
      match createMember admission_year church_id
          (allocRun admission_year church_id rows k) with
      | .ok rows2 => rows2
      | .error _ => allocRun admission_year church_id rows k

/-- The rows appended to `rows` by a run of `n` creations. -/
def allocatedNums (admission_year church_id : Nat) (rows : List MemberNumRow)
    (n : Nat) : List Nat :=
  ((allocRun admission_year church_id rows n).drop rows.length).filterMap
    (·.membership_number)

/-- The row created by the `i`-th successful allocation (0-based) of a
fresh church-year run: sequence part `2 * (i + 1)`. -/
def allocRow (admission_year church_id i : Nat) : MemberNumRow :=
  ⟨church_id, some (admission_year * 10000 + 2 * (i + 1))⟩

/-! ## Relationship Symmetry Engine -/

/-- `family_relationship_type`, from `src/types/database.ts`
(`FamilyRelationshipType`): `Father`, `Mother`, `Spouse`,
`Brother/Sister` (the spec's "Sibling"), `Son/Daughter` (the spec's
"Child"). -/
inductive FamilyRelationshipType where
  | Father
  | Mother
  | Spouse
  | BrotherSister
  | SonDaughter
deriving DecidableEq, Repr

/-- Modelled from the spec: the fixed mirror-type mapping of
`add_family_relationship` (Father→Child and vice versa, Mother→Child,
Spouse→Spouse, Sibling→Sibling), whose SQL body is absent from the
repository.  The documentation lists no mirror for `Son/Daughter`; the
spec's "vice versa" reading (Child→Father) is used here — no claim
depends on that case. -/
def mirror : FamilyRelationshipType → FamilyRelationshipType
  | .Father => .SonDaughter
  | .Mother => .SonDaughter
  | .Spouse => .Spouse
  | .BrotherSister => .BrotherSister
  | .SonDaughter => .Father

/-- The `(member_id, related_member_id, relationship_type)` triple the
symmetry engine checks and inserts. -/
structure Edge where
  member_id : Nat
  related_member_id : Nat
  rel : FamilyRelationshipType
deriving DecidableEq, Repr

/-- Persisted members (their ids) and the family-relationship edges. -/
structure RelState where
  members : List Nat
  edges : List Edge
deriving DecidableEq, Repr

/-- Error taxonomy of the symmetry engine. -/
inductive RelError where
  | NotFound
  | InvalidOperation
  | DuplicateEdge
deriving DecidableEq, Repr

/-- Modelled from the spec: `add_family_relationship(member_id,
related_member_id, relationship_type)`, whose SQL body is absent from
the repository.  Fails with `NotFound` when either member id is missing,
with `InvalidOperation` on a self-relationship, with `DuplicateEdge`
when the exact edge exists; otherwise inserts the requested edge and —
unless it already exists — the mirror edge, atomically. -/
def add_family_relationship (s : RelState) (a b : Nat)
    (t : FamilyRelationshipType) : Except RelError RelState :=
  if a ∈ s.members ∧ b ∈ s.members then
    if a = b then .error .InvalidOperation
    else if (⟨a, b, t⟩ : Edge) ∈ s.edges then .error .DuplicateEdge
    else
      if (⟨b, a, mirror t⟩ : Edge) ∈ s.edges ++ [⟨a, b, t⟩] then
        .ok { s with edges := s.edges ++ [⟨a, b, t⟩] }
      else .ok { s with edges := s.edges ++ [⟨a, b, t⟩] ++ [⟨b, a, mirror t⟩] }
  else .error .NotFound

/-- A stored `member_family_relationships` row: primary key `id` plus
the relationship triple (from `src/types/database.ts`,
`MemberFamilyRelationship`). -/
structure RelRow where
  id : Nat
  member_id : Nat
  related_member_id : Nat
  rel : FamilyRelationshipType
deriving DecidableEq, Repr

/-- `remove_relationship(edge_id)`: the delete issued by
`deleteRelationship` in `src/components/member-family-relationships.tsx`
— delete from `member_family_relationships` where `id` equals the given
edge id, touching nothing else. -/
def remove_relationship (edges : List RelRow) (eid : Nat) : List RelRow :=
  edges.filter fun e => e.id ≠ eid

/-! ## Hierarchy Validator -/

/-- `church_type`, from `src/types/database.ts` (`ChurchType`). -/
inductive ChurchType where
  | Church
  | Congregation
  | PresbyterialCongregation
  | PreachingPoint
deriving DecidableEq, Repr

/-- The projection of a `churches` row the hierarchy rules read: `id`,
`type` (named `ctype`, `type` being reserved in Lean) and the nullable
self-reference `parent_church_id`. -/
structure ChurchRow where
  id : Nat
  ctype : ChurchType
  parent_church_id : Option Nat
deriving DecidableEq, Repr

/-- The type-parent consistency CHECK constraint, from the church
hierarchy documentation: `(parent_church_id IS NULL AND type = 'Church')
OR (parent_church_id IS NOT NULL AND type IN ('Congregation',
'Presbyterial Congregation', 'Preaching Point'))`. -/
def check_type_parent (c : ChurchRow) : Prop :=
  (c.parent_church_id = none ∧ c.ctype = ChurchType.Church) ∨
  (c.parent_church_id ≠ none ∧
    (c.ctype = ChurchType.Congregation ∨
     c.ctype = ChurchType.PresbyterialCongregation ∨
     c.ctype = ChurchType.PreachingPoint))

/-- The no-self-reference CHECK constraint `id != parent_church_id`
(vacuously satisfied when the parent is NULL, per SQL semantics). -/
def check_no_self_parent (c : ChurchRow) : Prop :=
  c.parent_church_id ≠ some c.id

/-- Modelled from the spec: the `validate_congregation_hierarchy`
trigger (body absent from the repository) together with the
`parent_church_id REFERENCES churches(id)` foreign key — a non-null
parent must be an existing row whose own type is `Church`. -/
def check_parent_is_church (db : List ChurchRow) (c : ChurchRow) : Prop :=
  c.parent_church_id = none ∨
  ∃ r ∈ db, c.parent_church_id = some r.id ∧ r.ctype = ChurchType.Church

/-- A church write (insert or update) is accepted exactly when all
write-time rules hold against the current table `db`. -/
def acceptChurchWrite (db : List ChurchRow) (c : ChurchRow) : Prop :=
  check_type_parent c ∧ check_no_self_parent c ∧ check_parent_is_church db c

/-- The spec's `Independent` shape: `type = Church`, no parent. -/
def IndependentShape (c : ChurchRow) : Prop :=
  c.ctype = ChurchType.Church ∧ c.parent_church_id = none

/-- The spec's `Dependent` shape: `type ≠ Church`, a parent different
from itself whose row exists and has `type = Church`. -/
def DependentShape (db : List ChurchRow) (c : ChurchRow) : Prop :=
  c.ctype ≠ ChurchType.Church ∧
  ∃ p, c.parent_church_id = some p ∧ p ≠ c.id ∧
    ∃ r ∈ db, r.id = p ∧ r.ctype = ChurchType.Church

instance (c : ChurchRow) : Decidable (check_type_parent c) := by
  unfold check_type_parent; infer_instance

instance (c : ChurchRow) : Decidable (check_no_self_parent c) := by
  unfold check_no_self_parent; infer_instance

instance (db : List ChurchRow) (c : ChurchRow) :
    Decidable (check_parent_is_church db c) := by
  unfold check_parent_is_church; infer_instance

instance (db : List ChurchRow) (c : ChurchRow) :
    Decidable (acceptChurchWrite db c) := by
  unfold acceptChurchWrite; infer_instance

/-- A concrete two-row church table: an independent church `1` and a
congregation `2` under it. -/
def demoChurchDb : List ChurchRow :=
  [⟨1, .Church, none⟩, ⟨2, .Congregation, some 1⟩]

/-- Modelled from the spec: `get_congregation_count(church_id)` (body
absent from the repository) — the number of rows whose
`parent_church_id` is the given church. -/
def get_congregation_count (db : List ChurchRow) (cid : Nat) : Nat :=
  (db.filter fun r => r.parent_church_id = some cid).length

/-- Modelled from the spec: `can_delete_church(church_id)` (body absent
from the repository) — TRUE when no row references the church as its
parent. -/
def can_delete_church (db : List ChurchRow) (cid : Nat) : Bool :=
  !(db.any fun r => r.parent_church_id = some cid)

/-- Deleting a church row, with the documented `ON DELETE SET NULL`
foreign-key action of `parent_church_id`: the target rows are removed
and every remaining row that referenced a removed id as parent keeps
all its fields except that `parent_church_id` becomes NULL
(`deleteChurch` in `src/components/churches-list.tsx` issues the
delete by id; the referential action is modelled from the
documentation). -/
def delete_church (db : List ChurchRow) (cid : Nat) : List ChurchRow :=
  (db.filter fun r => r.id ≠ cid).map fun r =>
    if r.parent_church_id = some cid then { r with parent_church_id := none }
    else r

/-! ## Typed client interface -/

/-- The field names of the `Member` row interface in
`src/types/database.ts`, in declaration order. -/
def memberFields : List String :=
  ["id", "photo_url", "name", "wife", "address", "address_line_2",
   "neighborhood", "city", "state", "country", "postal_code", "phone",
   "mobile", "email", "cpf", "date_of_birth", "place_of_birth", "sex",
   "marital_status", "spouse", "wedding_date", "cpf_rg",
   "issuing_authority", "education_level", "profession", "mother_name",
   "father_name", "church_id", "membership_number", "member_status",
   "office", "baptism_date", "baptism_pastor", "baptism_church",
   "profession_of_faith_date", "profession_of_faith_pastor",
   "profession_of_faith_church", "admission_date", "admission_method",
   "dismissal_date", "dismissal_method", "situation", "disciplined",
   "discipline_date", "discipline_notes", "pending_transfer", "history",
   "created_at", "updated_at"]

/-- TypeScript's `Omit<T, K>` on field-name lists: keep the fields not
named in `keys`. -/
def tsOmit (keys fields : List String) : List String :=
  fields.filter fun f => f ∉ keys

/-- `MemberInsert = Omit<Member, 'id' | 'membership_number' |
'created_at' | 'updated_at'>`, from `src/types/database.ts`. -/
def memberInsertFields : List String :=
  tsOmit ["id", "membership_number", "created_at", "updated_at"] memberFields

/-- Modelled from the spec: `trigger_auto_membership_number`, the
`BEFORE INSERT` trigger (body absent from the repository) — it invokes
the allocator only when the caller did not supply a membership number. -/
def trigger_auto_membership_number (supplied : Option Nat)
    (admission_year church_id : Nat) (rows : List MemberNumRow) :
    Except AllocError Nat :=
  match supplied with
  | some n => .ok n
  | none => generate_membership_number admission_year church_id rows

/-- A member insert through the typed client interface: `MemberInsert`
has no `membership_number` field, so the trigger always sees the field
unsupplied. -/
def insert_member_typed (admission_year church_id : Nat)
    (rows : List MemberNumRow) : Except AllocError Nat :=
  trigger_auto_membership_number none admission_year church_id rows

/-! ## Church form payload -/

/-- The initial `type` of the church form state (`formData` in the
`ChurchForm` component initialises `type: 'Church'`). -/
def churchFormInitialType : ChurchType := .Church

/-- The selectable options of the form's `type` Select: the only
`SelectItem` offered is `Church`. -/
def churchFormTypeOptions : List ChurchType := [.Church]

/-- The keys of the `churchData` payload `handleSubmit` sends on insert
and update: the `formData` keys (the spread leaves the key set
unchanged).  `parent_church_id` is not among them. -/
def churchFormPayloadKeys : List String :=
  ["type", "name", "address", "neighborhood", "city", "state", "country",
   "postal_code", "phone", "website", "email", "cnpj", "lead_pastor_id",
   "assistant_pastor_ids", "organization_date", "presbytery", "notes",
   "photo_url"]

/-- The form's `type` after a sequence of Select change events, each
replacing the current value with the selected one. -/
def churchFormTypeAfter (events : List ChurchType) : ChurchType :=
  events.foldl (fun _ sel => sel) churchFormInitialType

/-! ## Theorems -/

lemma foldr_max_init (l : List Nat) (b : Nat) :
    l.foldr max b = max (l.foldr max 0) b := by
  induction l with
  | nil => simp
  | cons a l ih => simp only [List.foldr_cons, ih]; omega

lemma seqsFor_append (y c : Nat) (l l' : List MemberNumRow) :
    seqsFor y c (l ++ l') = seqsFor y c l ++ seqsFor y c l' :=
  List.filterMap_append ..

lemma seqsFor_allocRows (y c : Nat) :
    ∀ k, k ≤ 4999 →
      seqsFor y c ((List.range k).map (allocRow y c)) =
        (List.range k).map fun i => 2 * (i + 1) := by
  intro k
  induction k with
  | zero => intro _; rfl
  | succ k ih =>
      intro hk
      rw [List.range_succ, List.map_append, List.map_append, seqsFor_append,
        ih (by omega)]
      have hseq : (y * 10000 + 2 * (k + 1)) / 10000 = y ∧
          (y * 10000 + 2 * (k + 1)) % 10000 = 2 * (k + 1) := by omega
      simp [seqsFor, allocRow, hseq.1, hseq.2]

lemma foldr_max_evenRange (k : Nat) :
    (((List.range k).map fun i => 2 * (i + 1)).foldr max 0) = 2 * k := by
  induction k with
  | zero => rfl
  | succ k ih =>
      rw [List.range_succ, List.map_append, List.foldr_append]
      simp only [List.map_cons, List.map_nil, List.foldr_cons, List.foldr_nil]
      rw [foldr_max_init, ih]
      omega

lemma generate_at_closed (y c k : Nat) (rows : List MemberNumRow)
    (h0 : seqsFor y c rows = []) (hk : k + 1 ≤ 4999) :
    generate_membership_number y c (rows ++ (List.range k).map (allocRow y c)) =
      .ok (y * 10000 + 2 * (k + 1)) := by
  have hseqs : seqsFor y c (rows ++ (List.range k).map (allocRow y c)) =
      (List.range k).map fun i => 2 * (i + 1) := by
    rw [seqsFor_append, h0, List.nil_append, seqsFor_allocRows y c k (by omega)]
  have hnext : nextSeq (seqsFor y c (rows ++ (List.range k).map (allocRow y c))) =
      2 * (k + 1) := by
    rw [hseqs]
    unfold nextSeq
    split
    · rename_i hemp
      have : k = 0 := by
        by_contra hne
        exact absurd hemp (by simp [List.range_eq_nil, hne])
      omega
    · rw [foldr_max_evenRange]; omega
  unfold generate_membership_number
  rw [hnext, if_neg (by omega)]

lemma allocRun_closed (y c : Nat) (rows : List MemberNumRow)
    (h0 : seqsFor y c rows = []) :
    ∀ k, k ≤ 4999 →
      allocRun y c rows k = rows ++ (List.range k).map (allocRow y c) := by
  intro k
  induction k with
  | zero => intro _; simp [allocRun]
  | succ k ih =>
      intro hk
      show (match createMember y c (allocRun y c rows k) with
        | .ok rows2 => rows2
        | .error _ => allocRun y c rows k) = _
      rw [ih (by omega), createMember, generate_at_closed y c k rows h0 hk]
      simp [List.range_succ, allocRow]

lemma allocatedNums_closed (y c n : Nat) (rows : List MemberNumRow)
    (h0 : seqsFor y c rows = []) (hn : n ≤ 4999) :
    allocatedNums y c rows n =
      (List.range n).map fun i => y * 10000 + 2 * (i + 1) := by
  unfold allocatedNums
  rw [allocRun_closed y c rows h0 n hn, List.drop_left]
  induction n with
  | zero => rfl
  | succ n ih =>
      rw [List.range_succ, List.map_append, List.map_append,
        List.filterMap_append, ih (by omega)]
      rfl

/-- **C1.**  For every run of member creations sharing one `church_id`
and admission year, starting from a table holding no membership number
for that (church, year) pair, the assigned membership numbers are
pairwise distinct, have even sequence parts, grow by exactly 2 in
creation order, and the first one has sequence part `0002`. -/
theorem membership_numbers_run (y c n : Nat) (rows : List MemberNumRow)
    (h0 : seqsFor y c rows = []) (hn : n ≤ 4999) :
    (allocatedNums y c rows n).Nodup ∧
    (∀ x ∈ allocatedNums y c rows n, x % 2 = 0) ∧
    (∀ i (h : i + 1 < (allocatedNums y c rows n).length),
        (allocatedNums y c rows n).get ⟨i + 1, h⟩ =
          (allocatedNums y c rows n).get ⟨i, Nat.lt_of_succ_lt h⟩ + 2) ∧
    (∀ h : 0 < (allocatedNums y c rows n).length,
        (allocatedNums y c rows n).get ⟨0, h⟩ = y * 10000 + 2) := by
  have hcl := allocatedNums_closed y c n rows h0 hn
  refine ⟨?_, ?_, ?_, ?_⟩
  · rw [hcl]
    exact (List.nodup_range n).map (fun a b hab => by omega)
  · intro x hx
    rw [hcl] at hx
    obtain ⟨i, _, rfl⟩ := List.mem_map.mp hx
    omega
  · intro i h
    simp only [List.get_eq_getElem, hcl, List.getElem_map, List.getElem_range]
    omega
  · intro h
    simp only [List.get_eq_getElem, hcl, List.getElem_map, List.getElem_range]

/-- Witness for C1 at `year = 1`, `church = 0`, two creations from an
empty table. -/
theorem membership_numbers_run_witness :
    seqsFor 1 0 [] = [] ∧ 2 ≤ 4999 ∧
    ((allocatedNums 1 0 [] 2).Nodup ∧
     (∀ x ∈ allocatedNums 1 0 [] 2, x % 2 = 0) ∧
     (∀ i (h : i + 1 < (allocatedNums 1 0 [] 2).length),
         (allocatedNums 1 0 [] 2).get ⟨i + 1, h⟩ =
           (allocatedNums 1 0 [] 2).get ⟨i, Nat.lt_of_succ_lt h⟩ + 2) ∧
     (∀ h : 0 < (allocatedNums 1 0 [] 2).length,
         (allocatedNums 1 0 [] 2).get ⟨0, h⟩ = 1 * 10000 + 2)) :=
  ⟨by decide, by decide, membership_numbers_run 1 0 2 [] (by decide) (by decide)⟩

lemma le_foldr_max (l : List Nat) (a : Nat) (ha : a ∈ l) : a ≤ l.foldr max 0 := by
  induction l with
  | nil => cases ha
  | cons b l ih =>
      rcases List.mem_cons.mp ha with rfl | hmem
      · simp only [List.foldr_cons]; omega
      · have := ih hmem
        simp only [List.foldr_cons]; omega

/-- **C2.**  At the sequence ceiling: the allocation that yields sequence
`9998` (the 4,999th of a fresh church-year) succeeds; once `9998` is
among the stored sequence parts every further allocation for that
(church, year) fails with `ExhaustedSequence`; and a successful
allocation never returns a sequence at or below one already stored
(no wrap-around, no reuse). -/
theorem membership_ceiling (y c : Nat) :
    (∀ rows, seqsFor y c rows = [] →
        generate_membership_number y c (allocRun y c rows 4998) =
          .ok (y * 10000 + 9998)) ∧
    (∀ rows, 9998 ∈ seqsFor y c rows →
        generate_membership_number y c rows = .error .ExhaustedSequence) ∧
    (∀ rows n, generate_membership_number y c rows = .ok n →
        ∀ s ∈ seqsFor y c rows, s < n % 10000) := by
  refine ⟨?_, ?_, ?_⟩
  · intro rows h0
    rw [allocRun_closed y c rows h0 4998 (by omega)]
    have := generate_at_closed y c 4998 rows h0 (by omega)
    simpa using this
  · intro rows hmem
    have hne : seqsFor y c rows ≠ [] := by
      intro he; rw [he] at hmem; exact absurd hmem (List.not_mem_nil 9998)
    have hfold := le_foldr_max _ _ hmem
    have hnext : nextSeq (seqsFor y c rows) = (seqsFor y c rows).foldr max 0 + 2 := by
      unfold nextSeq; rw [if_neg hne]
    unfold generate_membership_number
    rw [if_pos (by omega)]
  · intro rows n hgen s hs
    have hne : seqsFor y c rows ≠ [] := by
      intro he; rw [he] at hs; exact absurd hs (List.not_mem_nil s)
    have hnext : nextSeq (seqsFor y c rows) = (seqsFor y c rows).foldr max 0 + 2 := by
      unfold nextSeq; rw [if_neg hne]
    have hfold := le_foldr_max _ _ hs
    unfold generate_membership_number at hgen
    split at hgen
    · exact absurd hgen (by simp)
    · rename_i hle
      have hn : n = y * 10000 + nextSeq (seqsFor y c rows) := by
        injection hgen with h; omega
      omega

/-- Witness for C2: year `1`, church `0`; a fresh table for the
ceiling-success part, a table already holding sequence `9998` for the
failure part, and a table holding `0002` for the no-reuse part. -/
theorem membership_ceiling_witness :
    (seqsFor 1 0 [] = [] ∧
      generate_membership_number 1 0 (allocRun 1 0 [] 4998) = .ok 19998) ∧
    (9998 ∈ seqsFor 1 0 [⟨0, some 19998⟩] ∧
      generate_membership_number 1 0 [⟨0, some 19998⟩] =
        .error .ExhaustedSequence) ∧
    (generate_membership_number 1 0 [⟨0, some 10002⟩] = .ok 10004 ∧
      ∀ s ∈ seqsFor 1 0 [⟨0, some 10002⟩], s < 10004 % 10000) :=
  ⟨⟨by decide, (membership_ceiling 1 0).1 [] (by decide)⟩,
   ⟨by decide, (membership_ceiling 1 0).2.1 [⟨0, some 19998⟩] (by decide)⟩,
   ⟨rfl, (membership_ceiling 1 0).2.2 [⟨0, some 10002⟩] 10004 rfl⟩⟩

/-- **C3.**  For distinct existing members with no `Spouse` edge between
them, `add_family_relationship (A, B, Spouse)` succeeds leaving exactly
one `A→B:Spouse` and one `B→A:Spouse` edge and every other edge's
multiplicity unchanged, and an identical second call fails with
`DuplicateEdge` (returning no new state). -/
theorem add_spouse_bidirectional (s : RelState) (a b : Nat)
    (ha : a ∈ s.members) (hb : b ∈ s.members) (hab : a ≠ b)
    (h1 : (⟨a, b, .Spouse⟩ : Edge) ∉ s.edges)
    (h2 : (⟨b, a, .Spouse⟩ : Edge) ∉ s.edges) :
    ∃ s', add_family_relationship s a b .Spouse = .ok s' ∧
      s'.edges.count ⟨a, b, .Spouse⟩ = 1 ∧
      s'.edges.count ⟨b, a, .Spouse⟩ = 1 ∧
      (∀ e : Edge, e ≠ ⟨a, b, .Spouse⟩ → e ≠ ⟨b, a, .Spouse⟩ →
        s'.edges.count e = s.edges.count e) ∧
      add_family_relationship s' a b .Spouse = .error .DuplicateEdge := by
  have hne : (⟨b, a, .Spouse⟩ : Edge) ≠ ⟨a, b, .Spouse⟩ := by
    intro h
    injection h with hba _ _
    exact hab hba.symm
  have hmirror : (⟨b, a, mirror .Spouse⟩ : Edge) ∉
      s.edges ++ [(⟨a, b, .Spouse⟩ : Edge)] := by
    intro h
    rcases List.mem_append.mp h with h | h
    · exact h2 h
    · exact hne (List.mem_singleton.mp h)
  have hstep : add_family_relationship s a b .Spouse =
      .ok { s with edges := s.edges ++ [⟨a, b, .Spouse⟩] ++ [⟨b, a, .Spouse⟩] } := by
    unfold add_family_relationship
    rw [if_pos ⟨ha, hb⟩, if_neg hab, if_neg h1, if_neg hmirror]
    rfl
  refine ⟨_, hstep, ?_, ?_, ?_, ?_⟩
  · simp [List.count_append, List.count_eq_zero.mpr h1, hne,
      List.count_singleton]
  · simp [List.count_append, List.count_eq_zero.mpr h2, hne,
      List.count_singleton]
  · intro e he1 he2
    simp [List.count_append, List.count_eq_zero.mpr, he1, he2]
  · unfold add_family_relationship
    rw [if_pos ⟨ha, hb⟩, if_neg hab,
      if_pos (by
        simp only [List.mem_append]
        exact Or.inl (Or.inr (List.mem_singleton.mpr rfl)))]

/-- Witness for C3: members `1` and `2`, empty edge table. -/
theorem add_spouse_bidirectional_witness :
    (1 ∈ RelState.members ⟨[1, 2], []⟩ ∧ 2 ∈ RelState.members ⟨[1, 2], []⟩ ∧
      (1 : Nat) ≠ 2 ∧
      (⟨1, 2, .Spouse⟩ : Edge) ∉ RelState.edges ⟨[1, 2], []⟩ ∧
      (⟨2, 1, .Spouse⟩ : Edge) ∉ RelState.edges ⟨[1, 2], []⟩) ∧
    (∃ s', add_family_relationship ⟨[1, 2], []⟩ 1 2 .Spouse = .ok s' ∧
      s'.edges.count ⟨1, 2, .Spouse⟩ = 1 ∧
      s'.edges.count ⟨2, 1, .Spouse⟩ = 1 ∧
      (∀ e : Edge, e ≠ ⟨1, 2, .Spouse⟩ → e ≠ ⟨2, 1, .Spouse⟩ →
        s'.edges.count e = (RelState.edges ⟨[1, 2], []⟩).count e) ∧
      add_family_relationship s' 1 2 .Spouse = .error .DuplicateEdge) :=
  ⟨⟨by decide, by decide, by decide, by decide, by decide⟩,
   add_spouse_bidirectional ⟨[1, 2], []⟩ 1 2 (by decide) (by decide)
     (by decide) (by decide) (by decide)⟩

/-- **C4.**  For distinct existing members, a successful
`add_family_relationship (A, B, Father)` creates `A→B:Father` together
with the mirror `B→A:Son/Daughter`; the mirror type comes from the
fixed mapping, and the mirror insert is skipped exactly when the mirror
edge already exists. -/
theorem add_father_mirror (s : RelState) (a b : Nat)
    (ha : a ∈ s.members) (hb : b ∈ s.members) (hab : a ≠ b)
    (hdup : (⟨a, b, .Father⟩ : Edge) ∉ s.edges) :
    mirror .Father = .SonDaughter ∧ mirror .Mother = .SonDaughter ∧
    mirror .Spouse = .Spouse ∧ mirror .BrotherSister = .BrotherSister ∧
    ∃ s', add_family_relationship s a b .Father = .ok s' ∧
      (⟨a, b, .Father⟩ : Edge) ∈ s'.edges ∧
      (⟨b, a, .SonDaughter⟩ : Edge) ∈ s'.edges ∧
      ((⟨b, a, .SonDaughter⟩ : Edge) ∈ s.edges →
        s'.edges = s.edges ++ [⟨a, b, .Father⟩]) ∧
      ((⟨b, a, .SonDaughter⟩ : Edge) ∉ s.edges →
        s'.edges = s.edges ++ [⟨a, b, .Father⟩, ⟨b, a, .SonDaughter⟩]) := by
  refine ⟨rfl, rfl, rfl, rfl, ?_⟩
  have hnef : (⟨b, a, .SonDaughter⟩ : Edge) ≠ ⟨a, b, .Father⟩ := by
    intro h
    cases h
  by_cases hm : (⟨b, a, .SonDaughter⟩ : Edge) ∈ s.edges
  · have hmem : (⟨b, a, mirror .Father⟩ : Edge) ∈
        s.edges ++ [(⟨a, b, .Father⟩ : Edge)] :=
      List.mem_append.mpr (Or.inl hm)
    refine ⟨{ s with edges := s.edges ++ [⟨a, b, .Father⟩] }, ?_, ?_, ?_, ?_, ?_⟩
    · unfold add_family_relationship
      rw [if_pos ⟨ha, hb⟩, if_neg hab, if_neg hdup, if_pos hmem]
    · exact List.mem_append.mpr (Or.inr (List.mem_singleton.mpr rfl))
    · exact List.mem_append.mpr (Or.inl hm)
    · intro _; rfl
    · intro h; exact absurd hm h
  · have hmem : (⟨b, a, mirror .Father⟩ : Edge) ∉
        s.edges ++ [(⟨a, b, .Father⟩ : Edge)] := by
      intro h
      rcases List.mem_append.mp h with h | h
      · exact hm h
      · exact hnef (List.mem_singleton.mp h)
    refine ⟨{ s with edges := s.edges ++ [⟨a, b, .Father⟩] ++ [⟨b, a, .SonDaughter⟩] },
      ?_, ?_, ?_, ?_, ?_⟩
    · unfold add_family_relationship
      rw [if_pos ⟨ha, hb⟩, if_neg hab, if_neg hdup, if_neg hmem]
      rfl
    · exact List.mem_append.mpr (Or.inl
        (List.mem_append.mpr (Or.inr (List.mem_singleton.mpr rfl))))
    · exact List.mem_append.mpr (Or.inr (List.mem_singleton.mpr rfl))
    · intro h; exact absurd h hm
    · intro _; simp

/-- Witness for C4: members `1` and `2`, empty edge table. -/
theorem add_father_mirror_witness :
    (1 ∈ RelState.members ⟨[1, 2], []⟩ ∧ 2 ∈ RelState.members ⟨[1, 2], []⟩ ∧
      (1 : Nat) ≠ 2 ∧
      (⟨1, 2, .Father⟩ : Edge) ∉ RelState.edges ⟨[1, 2], []⟩) ∧
    (mirror .Father = .SonDaughter ∧ mirror .Mother = .SonDaughter ∧
     mirror .Spouse = .Spouse ∧ mirror .BrotherSister = .BrotherSister ∧
     ∃ s', add_family_relationship ⟨[1, 2], []⟩ 1 2 .Father = .ok s' ∧
       (⟨1, 2, .Father⟩ : Edge) ∈ s'.edges ∧
       (⟨2, 1, .SonDaughter⟩ : Edge) ∈ s'.edges ∧
       ((⟨2, 1, .SonDaughter⟩ : Edge) ∈ RelState.edges ⟨[1, 2], []⟩ →
         s'.edges = RelState.edges ⟨[1, 2], []⟩ ++ [⟨1, 2, .Father⟩]) ∧
       ((⟨2, 1, .SonDaughter⟩ : Edge) ∉ RelState.edges ⟨[1, 2], []⟩ →
         s'.edges = RelState.edges ⟨[1, 2], []⟩ ++
           [⟨1, 2, .Father⟩, ⟨2, 1, .SonDaughter⟩])) :=
  ⟨⟨by decide, by decide, by decide, by decide⟩,
   add_father_mirror ⟨[1, 2], []⟩ 1 2 (by decide) (by decide) (by decide)
     (by decide)⟩

lemma remove_one_of_nodup (eid : Nat) :
    ∀ edges : List RelRow, (edges.map RelRow.id).Nodup →
      ∀ e ∈ edges, e.id = eid →
        (remove_relationship edges eid).length + 1 = edges.length := by
  intro edges
  induction edges with
  | nil => intro _ e he; cases he
  | cons h t ih =>
      intro hnd e he heid
      rw [List.map_cons] at hnd
      have hnd0 := List.nodup_cons.mp hnd
      rcases List.mem_cons.mp he with rfl | hmem
      · have hfilter : remove_relationship (e :: t) eid = t := by
          unfold remove_relationship
          rw [List.filter_cons_of_neg (by simp [heid])]
          apply List.filter_eq_self.mpr
          intro x hx
          simp only [decide_eq_true_eq]
          intro hxe
          have hxin : x.id ∈ t.map RelRow.id := List.mem_map.mpr ⟨x, hx, rfl⟩
          rw [hxe, ← heid] at hxin
          exact hnd0.1 hxin
        rw [hfilter]
        rfl
      · have hhe : h.id ≠ eid := by
          intro hid
          have hein : e.id ∈ t.map RelRow.id := List.mem_map.mpr ⟨e, hmem, rfl⟩
          rw [heid, ← hid] at hein
          exact hnd0.1 hein
        have hcons : remove_relationship (h :: t) eid =
            h :: remove_relationship t eid := by
          unfold remove_relationship
          rw [List.filter_cons_of_pos (by simp [hhe])]
        rw [hcons]
        simp only [List.length_cons]
        have := ih hnd0.2 e hmem heid
        omega

/-- **C8.**  `remove_relationship` keeps exactly the rows whose id
differs from the given edge id: every other edge — the mirror of a
symmetric pair included — survives unchanged, nothing is added, and
when the edge ids are unique and the edge exists exactly one row is
deleted (so an asymmetric graph is a valid post-state). -/
theorem remove_relationship_frame (edges : List RelRow) (eid : Nat) :
    (∀ e : RelRow, e ∈ remove_relationship edges eid ↔
      e ∈ edges ∧ e.id ≠ eid) ∧
    ((edges.map RelRow.id).Nodup → ∀ e ∈ edges, e.id = eid →
      (remove_relationship edges eid).length + 1 = edges.length) := by
  constructor
  · intro e
    unfold remove_relationship
    simp [List.mem_filter]
  · exact remove_one_of_nodup eid edges

/-- Witness for C8: a symmetric spouse pair with row ids `1` and `2`;
removing row `1` keeps the mirror row `2`. -/
theorem remove_relationship_frame_witness :
    ((⟨2, 20, 10, .Spouse⟩ : RelRow) ∈
        remove_relationship [⟨1, 10, 20, .Spouse⟩, ⟨2, 20, 10, .Spouse⟩] 1 ↔
      (⟨2, 20, 10, .Spouse⟩ : RelRow) ∈
        ([⟨1, 10, 20, .Spouse⟩, ⟨2, 20, 10, .Spouse⟩] : List RelRow) ∧
      (2 : Nat) ≠ 1) ∧
    (([⟨1, 10, 20, .Spouse⟩, ⟨2, 20, 10, .Spouse⟩] : List RelRow).map
        RelRow.id).Nodup ∧
    (⟨1, 10, 20, .Spouse⟩ : RelRow) ∈
      ([⟨1, 10, 20, .Spouse⟩, ⟨2, 20, 10, .Spouse⟩] : List RelRow) ∧
    (remove_relationship [⟨1, 10, 20, .Spouse⟩, ⟨2, 20, 10, .Spouse⟩] 1).length
        + 1 =
      ([⟨1, 10, 20, .Spouse⟩, ⟨2, 20, 10, .Spouse⟩] : List RelRow).length :=
  ⟨(remove_relationship_frame [⟨1, 10, 20, .Spouse⟩, ⟨2, 20, 10, .Spouse⟩] 1).1
      ⟨2, 20, 10, .Spouse⟩,
   by decide, by decide,
   (remove_relationship_frame [⟨1, 10, 20, .Spouse⟩, ⟨2, 20, 10, .Spouse⟩] 1).2
     (by decide) ⟨1, 10, 20, .Spouse⟩ (by decide) rfl⟩

/-- **C5.**  A church write is accepted iff the row is in exactly one of
the two shapes (`Independent` or `Dependent`), and in a table of
accepted rows with unique ids the parent of any row has itself no
parent — the forest never exceeds depth 2. -/
theorem church_write_shapes (db : List ChurchRow) (c : ChurchRow) :
    (acceptChurchWrite db c ↔ (IndependentShape c ∨ DependentShape db c)) ∧
    ¬(IndependentShape c ∧ DependentShape db c) ∧
    ((db.map ChurchRow.id).Nodup → (∀ r ∈ db, acceptChurchWrite db r) →
      ∀ x ∈ db, ∀ p, x.parent_church_id = some p →
        ∀ r ∈ db, r.id = p → r.parent_church_id = none) := by
  refine ⟨?_, ?_, ?_⟩
  · constructor
    · rintro ⟨htp, hself, hpc⟩
      unfold check_no_self_parent at hself
      unfold IndependentShape DependentShape
      cases hp : c.parent_church_id with
      | none =>
          left
          rcases htp with ⟨_, hch⟩ | ⟨hne, _⟩
          · exact ⟨hch, rfl⟩
          · exact absurd hp hne
      | some q =>
          right
          rcases htp with ⟨hnone, _⟩ | ⟨_, htypes⟩
          · rw [hp] at hnone; cases hnone
          · rcases hpc with hnone | ⟨r, hr, hsome, hch⟩
            · rw [hp] at hnone; cases hnone
            · rw [hp] at hsome
              have hq : r.id = q := (Option.some.inj hsome).symm
              refine ⟨?_, q, rfl, ?_, r, hr, hq, hch⟩
              · rcases htypes with h | h | h <;> rw [h] <;> intro hco <;> cases hco
              · intro hqc
                rw [hp, hqc] at hself
                exact hself rfl
    · rintro (⟨hc, hn⟩ | ⟨hnc, p, hp, hne, r, hr, hrid, hrch⟩)
      · refine ⟨Or.inl ⟨hn, hc⟩, ?_, Or.inl hn⟩
        unfold check_no_self_parent
        rw [hn]
        intro h
        cases h
      · have hpne : c.parent_church_id ≠ none := by
          rw [hp]
          intro h
          cases h
        have h1 : check_type_parent c := by
          refine Or.inr ⟨hpne, ?_⟩
          cases hct : c.ctype
          · exact absurd hct hnc
          · exact Or.inl rfl
          · exact Or.inr (Or.inl rfl)
          · exact Or.inr (Or.inr rfl)
        have h2 : check_no_self_parent c := by
          unfold check_no_self_parent
          rw [hp]
          intro h
          exact hne (Option.some.inj h)
        have h3 : check_parent_is_church db c :=
          Or.inr ⟨r, hr, by rw [hp, hrid], hrch⟩
        exact ⟨h1, h2, h3⟩
  · rintro ⟨⟨hc, _⟩, ⟨hnc, _⟩⟩
    exact hnc hc
  · intro hnodup hall x hx p hp r hr hrid
    have hx2 := (hall x hx).2.2
    rcases hx2 with hnone | ⟨r', hr', hsome, hch⟩
    · rw [hp] at hnone; cases hnone
    · rw [hp] at hsome
      have hr'id : r'.id = p := (Option.some.inj hsome).symm
      have hrr : r = r' :=
        List.inj_on_of_nodup_map hnodup hr hr' (by rw [hrid, hr'id])
      have hrch2 : r.ctype = ChurchType.Church := by rw [hrr]; exact hch
      have htp := (hall r hr).1
      rcases htp with ⟨hnone, _⟩ | ⟨_, htypes⟩
      · exact hnone
      · rcases htypes with h | h | h <;> rw [hrch2] at h <;> cases h

/-- Witness for C5 on `demoChurchDb`. -/
theorem church_write_shapes_witness :
    ((acceptChurchWrite demoChurchDb ⟨2, .Congregation, some 1⟩ ↔
       (IndependentShape ⟨2, .Congregation, some 1⟩ ∨
        DependentShape demoChurchDb ⟨2, .Congregation, some 1⟩)) ∧
     ¬(IndependentShape ⟨2, .Congregation, some 1⟩ ∧
       DependentShape demoChurchDb ⟨2, .Congregation, some 1⟩)) ∧
    ((demoChurchDb.map ChurchRow.id).Nodup ∧
     (∀ r ∈ demoChurchDb, acceptChurchWrite demoChurchDb r) ∧
     ∀ x ∈ demoChurchDb, ∀ p, x.parent_church_id = some p →
       ∀ r ∈ demoChurchDb, r.id = p → r.parent_church_id = none) :=
  ⟨⟨(church_write_shapes demoChurchDb ⟨2, .Congregation, some 1⟩).1,
    (church_write_shapes demoChurchDb ⟨2, .Congregation, some 1⟩).2.1⟩,
   by decide, by decide,
   (church_write_shapes demoChurchDb ⟨2, .Congregation, some 1⟩).2.2
     (by decide) (by decide)⟩

/-- **C6.**  `can_delete_church` returns true exactly when
`get_congregation_count` returns zero. -/
theorem can_delete_iff_count_zero (db : List ChurchRow) (cid : Nat) :
    can_delete_church db cid = true ↔ get_congregation_count db cid = 0 := by
  unfold can_delete_church get_congregation_count
  simp [List.any_eq_true, List.length_eq_zero, List.filter_eq_nil_iff]

/-- **C7.**  Deleting an independent church orphans its dependents
rather than deleting them: each dependent survives with only
`parent_church_id` nulled, rows not referencing the deleted church are
untouched, only rows with the deleted id are removed, and the delete is
not blocked. -/
theorem delete_church_orphans (db : List ChurchRow) (cid : Nat) :
    (∀ r ∈ db, r.id ≠ cid → r.parent_church_id = some cid →
      ({ r with parent_church_id := none } : ChurchRow) ∈ delete_church db cid) ∧
    (∀ r ∈ db, r.id ≠ cid → r.parent_church_id ≠ some cid →
      r ∈ delete_church db cid) ∧
    (delete_church db cid).length = (db.filter fun r => r.id ≠ cid).length ∧
    (∀ r ∈ delete_church db cid, r.id ≠ cid) := by
  refine ⟨?_, ?_, ?_, ?_⟩
  · intro r hr hid hpar
    unfold delete_church
    refine List.mem_map.mpr ⟨r, List.mem_filter.mpr ⟨hr, by simp [hid]⟩, ?_⟩
    rw [if_pos hpar]
  · intro r hr hid hpar
    unfold delete_church
    refine List.mem_map.mpr ⟨r, List.mem_filter.mpr ⟨hr, by simp [hid]⟩, ?_⟩
    rw [if_neg hpar]
  · unfold delete_church
    exact List.length_map ..
  · intro r hr
    unfold delete_church at hr
    obtain ⟨x, hx, rfl⟩ := List.mem_map.mp hr
    have hxid : x.id ≠ cid := by
      have := (List.mem_filter.mp hx).2
      simpa using this
    split
    · exact hxid
    · exact hxid

/-- Witness for C7: deleting church `1` from a table with a dependent
congregation `2` and an unrelated church `3`. -/
theorem delete_church_orphans_witness :
    ((⟨2, .Congregation, some 1⟩ : ChurchRow) ∈
        ([⟨1, .Church, none⟩, ⟨2, .Congregation, some 1⟩, ⟨3, .Church, none⟩] :
          List ChurchRow) ∧ (2 : Nat) ≠ 1 ∧
      (⟨2, ChurchType.Congregation, some 1⟩ : ChurchRow).parent_church_id =
        some 1 ∧
      ({ (⟨2, .Congregation, some 1⟩ : ChurchRow) with parent_church_id := none } :
          ChurchRow) ∈
        delete_church
          [⟨1, .Church, none⟩, ⟨2, .Congregation, some 1⟩, ⟨3, .Church, none⟩] 1) ∧
    ((⟨3, .Church, none⟩ : ChurchRow) ∈
        delete_church
          [⟨1, .Church, none⟩, ⟨2, .Congregation, some 1⟩, ⟨3, .Church, none⟩] 1) :=
  ⟨⟨by decide, by decide, rfl,
    (delete_church_orphans
        [⟨1, .Church, none⟩, ⟨2, .Congregation, some 1⟩, ⟨3, .Church, none⟩] 1).1
      ⟨2, .Congregation, some 1⟩ (by decide) (by decide) rfl⟩,
   (delete_church_orphans
       [⟨1, .Church, none⟩, ⟨2, .Congregation, some 1⟩, ⟨3, .Church, none⟩] 1).2.1
     ⟨3, .Church, none⟩ (by decide) (by decide) (by decide)⟩

/-- **C9.**  The typed interface cannot supply a membership number: the
`Member` row has the `membership_number` field but `MemberInsert` omits
it, so a member created through the typed API always receives its
number from the allocator trigger. -/
theorem member_insert_omits_number :
    "membership_number" ∈ memberFields ∧
    "membership_number" ∉ memberInsertFields ∧
    ∀ y c rows, insert_member_typed y c rows =
      generate_membership_number y c rows :=
  ⟨by decide, by decide, fun _ _ _ => rfl⟩

lemma foldl_select_mem :
    ∀ (es : List ChurchType) (init : ChurchType),
      (∀ e ∈ es, e ∈ churchFormTypeOptions) →
      init ∈ churchFormTypeOptions →
      es.foldl (fun _ sel => sel) init ∈ churchFormTypeOptions := by
  intro es
  induction es with
  | nil => intro init _ hinit; exact hinit
  | cons e es ih =>
      intro init h _
      exact ih e (fun x hx => h x (List.mem_cons_of_mem e hx))
        (h e (List.mem_cons_self e es))

/-- **C10.**  Every payload the church form can submit has type
`Church` — the initial value is `Church`, the only selectable option is
`Church` — and never contains a `parent_church_id` key, so dependent
shapes are unreachable through this entry point. -/
theorem church_form_payload (events : List ChurchType) :
    "parent_church_id" ∉ churchFormPayloadKeys ∧
    "type" ∈ churchFormPayloadKeys ∧
    ((∀ e ∈ events, e ∈ churchFormTypeOptions) →
      churchFormTypeAfter events = ChurchType.Church) := by
  refine ⟨by decide, by decide, ?_⟩
  intro h
  have hmem := foldl_select_mem events churchFormInitialType h (by decide)
  exact List.mem_singleton.mp hmem

/-- Witness for C10: one Select event choosing `Church`. -/
theorem church_form_payload_witness :
    (∀ e ∈ [ChurchType.Church], e ∈ churchFormTypeOptions) ∧
    ("parent_church_id" ∉ churchFormPayloadKeys ∧
     "type" ∈ churchFormPayloadKeys ∧
     churchFormTypeAfter [ChurchType.Church] = ChurchType.Church) :=
  ⟨by decide,
   (church_form_payload [ChurchType.Church]).1,
   (church_form_payload [ChurchType.Church]).2.1,
   (church_form_payload [ChurchType.Church]).2.2 (by decide)⟩

end ARol
